import Mathlib

/-!
# Verification of the git-agent tool-calling loop (src/main.py)

Shallow embedding of the repository's single source file: the three
arithmetic tools (`add`, `multiply`, `divide`), the conversation state
(`AgentState`, whose `messages` field carries the `operator.add`
list-concatenation reducer), the assistant node, the tool-execution node,
the router `tools_condition`, and the driver loop built from them.

Python integers are modelled as `Int`; Python's true division `/` on the
`divide` tool is modelled as exact division on `Rat`, with `none` standing
for the `ZeroDivisionError` raised when the divisor is zero.  Fallible
steps (indexing an empty list, an unknown tool name, missing arguments,
division by zero) return `Option`, `none` standing for the raised
exception that aborts the run.
-/

/-- Message role tag: the LangChain message classes used by src/main.py
(`HumanMessage`, the assistant's `AIMessage` responses, `ToolMessage`). -/
inductive Role where
  | human
  | assistant
  | toolResult
deriving DecidableEq, Repr

/-- A structured tool-call request carried by an assistant message:
an opaque identifier, the tool's registered name, and the argument
mapping (src/main.py's tools all take integer arguments `a` and `b`). -/
structure ToolCallRequest where
  id : String
  name : String
  args : List (String × Int)
deriving DecidableEq, Repr

/-- A LangChain message as used by src/main.py: role tag, text content,
the `tool_calls` list (empty unless the model attached requests to an
assistant message; an absent list is modelled as the empty list, matching
Python truthiness in `tools_condition`), and for tool-result messages the
originating call's identifier and the returned value. -/
structure Message where
  role : Role
  content : String
  tool_calls : List ToolCallRequest := []
  tool_call_id : Option String := none
  tool_value : Option Rat := none
deriving DecidableEq, Repr

/-- The graph state of src/main.py: `class AgentState(TypedDict)` with a
single field `messages : Annotated[List[BaseMessage], operator.add]`. -/
structure AgentState where
  messages : List Message
deriving DecidableEq, Repr

/-- The `@tool add`: `return a + b`. -/
def add (a b : Int) : Int := a + b

/-- The `@tool multiply` exactly as written in src/main.py: its body is
`return a + b` (its docstring says "Multiplies a and b"). -/
def multiply (a b : Int) : Int := a + b

/-- The `@tool divide`: `return a / b`, Python true division; raises
`ZeroDivisionError` (modelled as `none`) when `b = 0`. -/
def divide (a b : Int) : Option Rat :=
  if b = 0 then none else some ((a : Rat) / (b : Rat))

/-- The routes the conditional edge can return: the string `"tools"`
(continue to the tool node) or the sentinel `END` (terminate). -/
inductive Route where
  | tools
  | END
deriving DecidableEq, Repr

/-- The router `tools_condition` of src/main.py: read the latest message
(`state["messages"][-1]`, an exception on an empty list, modelled as
`none`); if its `tool_calls` list is truthy (non-empty) return `"tools"`,
otherwise return `END`. -/
def tools_condition (state : AgentState) : Option Route :=
  match state.messages.getLast? with
  | none => none
  | some last => if last.tool_calls ≠ [] then some Route.tools else some Route.END

/-- The `operator.add` reducer on `AgentState.messages`: a node's partial
state update is concatenated onto the existing message sequence. -/
def applyUpdate (s : AgentState) (update : List Message) : AgentState :=
  ⟨s.messages ++ update⟩

/-- `assistant_node` of src/main.py, with the hosted model client
(`llm_with_tools.invoke`) abstracted as the oracle `invoke`: it calls the
oracle on the current message list and returns a one-element update, the
singleton list holding the model's response, for the messages field. -/
def assistant_node (invoke : List Message → Message) (s : AgentState) : List Message :=
  [invoke s.messages]

/-- Dispatch of a registered tool by name, as the tool node performs it:
`add` and `multiply` return integers, `divide` returns a float (exact
rational here) or raises on a zero divisor; an unregistered name is an
unknown-tool failure (`none`). -/
def runTool (name : String) (a b : Int) : Option Rat :=
  match name with
  | "add" => some ((add a b : Int) : Rat)
  | "multiply" => some ((multiply a b : Int) : Rat)
  | "divide" => divide a b
  | _ => none

/-- Modelled from the spec: execution of one `ToolCallRequest` by the
tool-execution step (`ToolNode` comes from `langgraph.prebuilt`, not from
src/).  Per spec §4.4 it looks the tool up by name, reads the arguments,
invokes the tool function, and wraps the return value in a tool-result
message carrying the originating call's identifier; an unknown tool,
missing argument, or tool exception is fatal (`none`). -/
def execRequest (req : ToolCallRequest) : Option Message :=
  match req.args.lookup "a", req.args.lookup "b" with
  | some a, some b =>
      (runTool req.name a b).map fun v =>
        { role := Role.toolResult, content := "", tool_call_id := some req.id,
          tool_value := some v }
  | _, _ => none

/-- Modelled from the spec: sequential, synchronous execution of a list of
tool-call requests, in the listed order; the first failing request aborts
the whole step. -/
def execRequests : List ToolCallRequest → Option (List Message)
  | [] => some []
  | r :: rs =>
      match execRequest r, execRequests rs with
      | some m, some ms => some (m :: ms)
      | _, _ => none

/-- Modelled from the spec: the tool-execution step (`tool_node =
ToolNode(tools)` in src/main.py; `ToolNode` itself is library code).
Per spec §4.4 it takes the tool-call requests of the latest (assistant)
message and produces one tool-result message per request, in the listed
order, all in one synchronous step; any request failure is fatal. -/
def tool_node (s : AgentState) : Option (List Message) :=
  match s.messages.getLast? with
  | none => none
  | some last => execRequests last.tool_calls

/-- A run of several node steps under the `operator.add` reducer: each
executed node contributes a list of new messages, folded onto the state. -/
def runSteps (s : AgentState) (updates : List (List Message)) : AgentState :=
  updates.foldl applyUpdate s

/-- Outcome of one driver-loop turn. -/
inductive StepResult where
  | running (s : AgentState)
  | finished (s : AgentState)
  | failed
deriving DecidableEq, Repr

/-- One turn of the compiled graph of src/main.py: the assistant node
appends the model's response, the router inspects the new latest message,
and on the `"tools"` route the tool node appends its results before
control returns to the assistant node; on `END` the run finishes. -/
def driverTurn (invoke : List Message → Message) (s : AgentState) : StepResult :=
  match tools_condition (applyUpdate s (assistant_node invoke s)) with
  | none => StepResult.failed
  | some Route.END => StepResult.finished (applyUpdate s (assistant_node invoke s))
  | some Route.tools =>
      match tool_node (applyUpdate s (assistant_node invoke s)) with
      | none => StepResult.failed
      | some results =>
          StepResult.running (applyUpdate (applyUpdate s (assistant_node invoke s)) results)

/-- `n` turns of the driver loop from state `s`. -/
def driverRun (invoke : List Message → Message) (s : AgentState) : Nat → StepResult
  | 0 => StepResult.running s
  | n + 1 =>
      match driverRun invoke s n with
      | StepResult.running s' => driverTurn invoke s'
      | r => r

/-! ## Helper lemmas and concrete inputs used by witnesses -/

/-- Concrete tool-call request used in concrete evaluations. -/
def reqW : ToolCallRequest := ⟨"call1", "add", [("a", 2), ("b", 3)]⟩

/-- Concrete assistant message carrying one tool-call request. -/
def asstW : Message := { role := Role.assistant, content := "working", tool_calls := [reqW] }

/-- Concrete assistant message with no tool-call requests. -/
def finalW : Message := { role := Role.assistant, content := "done" }

/-- Concrete human message. -/
def humanW : Message := { role := Role.human, content := "hello" }

/-- Concrete state: a human message followed by a tool-calling assistant message. -/
def stateW : AgentState := ⟨[humanW, asstW]⟩

/-- The tool-result message `execRequest` produces for `reqW`. -/
def resultW : Message :=
  { role := Role.toolResult, content := "", tool_call_id := some "call1", tool_value := some 5 }

/-- A successful `execRequest` yields a tool-result message carrying the
originating request's identifier. -/
theorem execRequest_shape (req : ToolCallRequest) (m : Message)
    (h : execRequest req = some m) :
    m.role = Role.toolResult ∧ m.tool_call_id = some req.id := by
  unfold execRequest at h
  split at h
  · rw [Option.map_eq_some'] at h
    obtain ⟨v, _, hm⟩ := h
    subst hm
    exact ⟨rfl, rfl⟩
  · cases h

/-- Pointwise description of a successful `execRequests`: the output list
has one entry per request, and the entry at each index is the result of
executing the request at that index. -/
theorem execRequests_pointwise (reqs : List ToolCallRequest) (msgs : List Message)
    (h : execRequests reqs = some msgs) :
    msgs.length = reqs.length ∧
    ∀ i (hi : i < msgs.length) (hi' : i < reqs.length),
      execRequest (reqs.get ⟨i, hi'⟩) = some (msgs.get ⟨i, hi⟩) := by
  induction reqs generalizing msgs with
  | nil =>
      simp only [execRequests, Option.some.injEq] at h
      subst h
      exact ⟨rfl, fun i hi hi' => absurd hi (by simp)⟩
  | cons r rs ih =>
      rcases hr : execRequest r with _ | m <;>
        rcases hrs : execRequests rs with _ | ms <;>
          simp [execRequests, hr, hrs] at h
      subst h
      obtain ⟨hlen, hpt⟩ := ih ms hrs
      refine ⟨by simp [hlen], ?_⟩
      intro i hi hi'
      cases i with
      | zero => simpa using hr
      | succ j =>
          simp only [List.get_cons_succ]
          exact hpt j (by simpa using hi) (by simpa using hi')

/-! ## Claim theorems -/

/-- C1: For every conversation state whose latest message carries a
non-empty tool-call-request list, `tools_condition` returns the
`"tools"` route; for every state whose latest message carries an empty
(or absent) list, it returns `END`; the text content of the message is
irrelevant to the decision. -/
theorem C1_router_routes (s : AgentState) (m : Message)
    (h : s.messages.getLast? = some m) :
    (m.tool_calls ≠ [] → tools_condition s = some Route.tools) ∧
    (m.tool_calls = [] → tools_condition s = some Route.END) := by
  constructor <;> intro hm <;> simp [tools_condition, h, hm]

/-- C1 witness: on a concrete state ending in a tool-calling assistant
message the router routes to the tool node, and on a concrete state
ending in a plain assistant message it terminates. -/
theorem C1_router_routes_witness :
    tools_condition stateW = some Route.tools ∧
    tools_condition ⟨[humanW, finalW]⟩ = some Route.END :=
  ⟨(C1_router_routes stateW asstW rfl).1 (by decide),
   (C1_router_routes ⟨[humanW, finalW]⟩ finalW rfl).2 rfl⟩

/-- C2: Evaluation of the registered `multiply` tool at the failing input
12, 5 from the spec's worked example: the source body `return a + b`
yields 17, not the product 60 promised by its docstring "Multiplies a
and b" and by the spec. -/
theorem C2_multiply_defect_eval :
    multiply 12 5 = 17 ∧ multiply 12 5 ≠ 12 * 5 := by decide

/-- C3: For all integers a and b with b ≠ 0, the `divide` tool returns
the exact quotient a / b; for every a, dividing by zero fails (the
`ZeroDivisionError`, modelled as `none`) rather than returning a value. -/
theorem C3_divide_spec :
    (∀ a b : Int, b ≠ 0 → divide a b = some ((a : Rat) / (b : Rat))) ∧
    (∀ a : Int, divide a 0 = none) := by
  refine ⟨fun a b hb => ?_, fun a => ?_⟩
  · simp [divide, hb]
  · simp [divide]

/-- C3 witness: divide 6 3 returns the quotient, divide 5 0 fails. -/
theorem C3_divide_spec_witness :
    divide 6 3 = some ((6 : Rat) / (3 : Rat)) ∧ divide 5 0 = none :=
  ⟨C3_divide_spec.1 6 3 (by decide), C3_divide_spec.2 5⟩

/-- C4: For all integers a and b, the registered `add` tool returns
a + b. -/
theorem C4_add_spec (a b : Int) : add a b = a + b := rfl

/-- C5: Under the `operator.add` reducer, every executed step concatenates
its new messages at the end of the previous sequence, so after any run of
steps the message sequence is the initial sequence followed by each step's
contribution in order, and the final message count is the initial count
plus the sum of the lengths of the appended updates. -/
theorem C5_state_append_only (s : AgentState) (updates : List (List Message)) :
    (runSteps s updates).messages = s.messages ++ updates.flatten ∧
    (runSteps s updates).messages.length
      = s.messages.length + (updates.map List.length).sum := by
  have key : ∀ us (t : AgentState), (runSteps t us).messages = t.messages ++ us.flatten := by
    intro us
    induction us with
    | nil => intro t; simp [runSteps]
    | cons u us ih =>
        intro t
        have hstep : runSteps t (u :: us) = runSteps (applyUpdate t u) us := rfl
        rw [hstep, ih]
        simp [applyUpdate]
  refine ⟨key updates s, ?_⟩
  rw [key updates s]
  simp [List.length_flatten]

/-- C6: A successful tool-execution step over the latest assistant message
produces exactly one tool-result message per tool-call request, in the
order the requests were listed, each result carrying the identifier of
its originating request. -/
theorem C6_tool_result_pairing (s : AgentState) (last : Message) (results : List Message)
    (hlast : s.messages.getLast? = some last)
    (hrun : tool_node s = some results) :
    results.length = last.tool_calls.length ∧
    ∀ i (hi : i < results.length) (hi' : i < last.tool_calls.length),
      (results.get ⟨i, hi⟩).role = Role.toolResult ∧
      (results.get ⟨i, hi⟩).tool_call_id = some ((last.tool_calls).get ⟨i, hi'⟩).id := by
  have hreq : execRequests last.tool_calls = some results := by
    simpa [tool_node, hlast] using hrun
  obtain ⟨hlen, hpt⟩ := execRequests_pointwise _ _ hreq
  exact ⟨hlen, fun i hi hi' => execRequest_shape _ _ (hpt i hi hi')⟩

/-- C6 witness: on the concrete state ending in the assistant message with
the single request `reqW`, the tool step yields the single paired result
`resultW`. -/
theorem C6_tool_result_pairing_witness :
    [resultW].length = asstW.tool_calls.length ∧
    ∀ i (hi : i < [resultW].length) (hi' : i < asstW.tool_calls.length),
      ([resultW].get ⟨i, hi⟩).role = Role.toolResult ∧
      ([resultW].get ⟨i, hi⟩).tool_call_id = some ((asstW.tool_calls).get ⟨i, hi'⟩).id :=
  C6_tool_result_pairing stateW asstW [resultW] rfl (by decide)

/-- C7: The assistant step contributes exactly one new message, the model
client's single response; applying it to the state appends just that
message, leaving every prior message in place. -/
theorem C7_assistant_single_message (invoke : List Message → Message) (s : AgentState) :
    (assistant_node invoke s).length = 1 ∧
    (applyUpdate s (assistant_node invoke s)).messages
      = s.messages ++ [invoke s.messages] ∧
    (applyUpdate s (assistant_node invoke s)).messages.take s.messages.length
      = s.messages := by
  exact ⟨rfl, rfl, List.take_left s.messages [invoke s.messages]⟩

/-- Model oracle that always answers with an assistant message carrying
one tool-call request; used to exhibit an unbounded run of the loop. -/
def alwaysToolInvoke : List Message → Message :=
  fun _ => { role := Role.assistant, content := "", tool_calls := [reqW] }

/-- Under `alwaysToolInvoke`, every driver turn takes the tools route and
keeps running. -/
theorem driverTurn_alwaysTool (s : AgentState) :
    ∃ s', driverTurn alwaysToolInvoke s = StepResult.running s' := by
  have h1 : tools_condition (applyUpdate s (assistant_node alwaysToolInvoke s))
      = some Route.tools := by
    simp [tools_condition, applyUpdate, assistant_node, alwaysToolInvoke,
      List.getLast?_concat, reqW]
  have h2 : tool_node (applyUpdate s (assistant_node alwaysToolInvoke s))
      = some [resultW] := by
    simp only [tool_node, applyUpdate, assistant_node, alwaysToolInvoke,
      List.getLast?_concat]
    decide
  refine ⟨applyUpdate (applyUpdate s (assistant_node alwaysToolInvoke s)) [resultW], ?_⟩
  unfold driverTurn
  rw [h1, h2]

/-- C8: The driver loop has no iteration bound: there is a sequence of
model responses, each carrying a non-empty tool-call-request list, under
which every turn routes to the tool node and the loop is still running
after any number of turns, never reaching the terminate route. -/
theorem C8_loop_unbounded :
    ∃ invoke : List Message → Message,
      (∀ ms, (invoke ms).tool_calls ≠ []) ∧
      ∀ (s : AgentState) (n : Nat), ∃ s', driverRun invoke s n = StepResult.running s' := by
  refine ⟨alwaysToolInvoke, fun ms => by simp [alwaysToolInvoke], fun s n => ?_⟩
  induction n with
  | zero => exact ⟨s, rfl⟩
  | succ k ih =>
      obtain ⟨s', hs'⟩ := ih
      obtain ⟨s'', hs''⟩ := driverTurn_alwaysTool s'
      exact ⟨s'', by simp [driverRun, hs', hs'']⟩

/-- C9: The router is a deterministic, stateless function of the latest
message only: two states whose latest messages coincide are routed
identically, whatever their earlier messages. -/
theorem C9_router_stateless (s₁ s₂ : AgentState) (m : Message)
    (h₁ : s₁.messages.getLast? = some m) (h₂ : s₂.messages.getLast? = some m) :
    tools_condition s₁ = tools_condition s₂ := by
  simp [tools_condition, h₁, h₂]

/-- C9 witness: a three-message history and a one-message history with the
same latest message are routed identically. -/
theorem C9_router_stateless_witness :
    tools_condition ⟨[humanW, finalW, asstW]⟩ = tools_condition ⟨[asstW]⟩ :=
  C9_router_stateless ⟨[humanW, finalW, asstW]⟩ ⟨[asstW]⟩ asstW rfl rfl

/-- C10: On a state with an empty message sequence the router fails (the
negative index raises) instead of returning a route: a non-empty
conversation is a precondition of `tools_condition`. -/
theorem C10_router_empty_state (s : AgentState) (h : s.messages = []) :
    tools_condition s = none := by
  simp [tools_condition, h]

/-- C10 witness: the router fails on the empty state. -/
theorem C10_router_empty_state_witness : tools_condition ⟨[]⟩ = none :=
  C10_router_empty_state ⟨[]⟩ rfl
